import Mathlib

/-!
Verification of the rice-traceability front-end's core logic (file
`src/index.tsx`): the batch-identifier matcher, the traceability-record
synthesizer, the batch-catalog builder, the cart/order state machine and
the fallback pricing estimator.

Modelling conventions:
* JavaScript numbers are modelled by `ℚ` (all arithmetic in the verified
  paths is exact at the values of interest, e.g. `250 * 0.18 = 45`).
* JavaScript `Date` values produced by `new Date(year, 0, n)` and shifted
  with `setDate(getDate() ± k)` are modelled by their day index `n : ℤ`
  (January 1 has index 1; `setDate(getDate() + k)` adds exactly `k` days).
  Comparison of two such dates within one record agrees with comparison of
  the day indices.  Display-only string formatting of dates, the constant
  map-embed URLs, the sampled quality-metric strings and the certification
  line (which needs a day-of-month computation used by no claim) are
  presentation and are not part of the model.
* Calls of `Math.random`-based `getRandom(a, b, 0)` followed by `parseInt`
  are modelled by a `RandSamples` value carrying one field per sampled
  quantity; `ValidSamples` describes exactly the integers reachable from a
  uniform draw in `[a, b)` rounded by `toFixed(0)` (half away from zero),
  namely `a ≤ n ≤ b`.
-/

/-! ## Cart / order state machine (src/index.tsx, `App`) -/

/-- Shop product, from the `PRODUCTS` table: `id`, `name`, `priceINR`
(image and description are presentation and omitted). -/
structure ShopProduct where
  id : Nat
  name : String
  priceINR : ℚ
deriving DecidableEq, Repr

/-- Cart line: a spread copy of the product plus a `quantity`, exactly as
`{ ...product, quantity }` builds it in `addToCart`. -/
structure CartItem where
  id : Nat
  name : String
  priceINR : ℚ
  quantity : ℚ
deriving DecidableEq, Repr

/-- Shipping details collected by the checkout form. -/
structure ShippingDetails where
  name : String
  address : String
  city : String
  state : String
  zip : String
  email : String
deriving DecidableEq, Repr

/-- Finalized order, as built in `placeOrder`. -/
structure PlacedOrder where
  id : String
  date : String
  items : List CartItem
  subtotal : ℚ
  taxes : ℚ
  total : ℚ
  shippingDetails : ShippingDetails
deriving DecidableEq, Repr

/-- Session state owned by the `App` component: the cart and the order
history (`useState` cells `cart` and `orders`). -/
structure SessionState where
  cart : List CartItem
  orders : List PlacedOrder
deriving DecidableEq, Repr

/-- Model of `addToCart(product, quantity)`: if a line with the product's
id exists, increment the quantity of every line with that id (the source's
`map`); else append a new line spread from the product. -/
def addToCart (cart : List CartItem) (product : ShopProduct) (quantity : ℚ) :
    List CartItem :=
  match cart.find? (fun item => item.id == product.id) with
  | some _ =>
      cart.map (fun item =>
        if item.id == product.id then
          { item with quantity := item.quantity + quantity }
        else item)
  | none => cart ++ [⟨product.id, product.name, product.priceINR, quantity⟩]

/-- Model of `updateCartQuantity(productId, newQuantity)`: quantity `≤ 0`
filters the line out, otherwise the quantity of every line with that id is
replaced. -/
def updateCartQuantity (cart : List CartItem) (productId : Nat)
    (newQuantity : ℚ) : List CartItem :=
  if newQuantity ≤ 0 then
    cart.filter (fun item => item.id != productId)
  else
    cart.map (fun item =>
      if item.id == productId then { item with quantity := newQuantity }
      else item)

/-- Lines of a cart belonging to one product id (used to state claims about
"the line for that product"). -/
def cartLinesFor (cart : List CartItem) (productId : Nat) : List CartItem :=
  cart.filter (fun item => item.id == productId)

/-- Model of `placeOrder(orderDetails)`: subtotal is the left fold
`cart.reduce((sum, item) => sum + item.priceINR * item.quantity, 0)`,
taxes are `subtotal * 0.18`, total their sum; the new order gets id
`MKRM-` ++ the current timestamp and is PREPENDED to the order history
(`[newOrder, ...prevOrders]`); finally the cart is cleared.  The current
time and the display date string are passed in as parameters (`Date.now()`
and `toLocaleDateString` are environment inputs). -/
def placeOrder (st : SessionState) (orderDetails : ShippingDetails)
    (now : Nat) (dateStr : String) : SessionState :=
  let subtotal := st.cart.foldl (fun sum item => sum + item.priceINR * item.quantity) 0
  let taxes := subtotal * (0.18 : ℚ)
  let total := subtotal + taxes
  let newOrder : PlacedOrder :=
    ⟨"MKRM-" ++ toString now, dateStr, st.cart, subtotal, taxes, total, orderDetails⟩
  { cart := [], orders := newOrder :: st.orders }

/-! ## Fallback pricing estimator (src/index.tsx, `PriceEstimatorService`) -/

/-- Result shape of the price estimator. -/
structure PriceEstimate where
  estimatedPriceINR : ℚ
  pricePerQuintal : ℚ
  reason : String
deriving DecidableEq, Repr

/-- Fixed base-price table from `fallbackPrice`. -/
def basePrices : List (String × ℚ) :=
  [("Sona Masoori Rice", 5500), ("Broken White Rice", 3000),
   ("Jai Sri Ram Premium Rice", 6500), ("Extra-Long Grain Basmati", 11000)]

/-- Model of the `fallbackPrice` closure.  The source's
`basePrices[riceType] || 5000` is a falsy-default lookup; since every table
value is a nonzero number, it coincides with lookup-with-default-5000.
`currentMonth` models `new Date().getMonth()` and is passed in. -/
def fallbackPrice (riceType : String) (quantity : ℚ) (currentMonth : Nat) :
    PriceEstimate :=
  let base := (basePrices.lookup riceType).getD 5000
  let pricePerQuintal := base * (1 + ((currentMonth % 3 : Nat) : ℚ) * (0.05 : ℚ))
  { estimatedPriceINR := pricePerQuintal * (quantity / 100),
    pricePerQuintal := pricePerQuintal,
    reason := "Price estimated using standard market rates (AI model offline)." }

/-! ## String utilities mirroring the JavaScript primitives used by
`DataProcessor` -/

/-- Character class of JavaScript whitespace as used by `String.trim` and
the regex class `\s` (the common members: ASCII blanks, NBSP and the BOM;
the rare Unicode space separators are not reachable from the repository's
data and are omitted). -/
def jsSpace (c : Char) : Bool :=
  c = ' ' || c = '\t' || c = '\n' || c = '\r' || c = '\x0b' || c = '\x0c' ||
  c = '\u00A0' || c = '\uFEFF'

/-- Model of JavaScript `String.prototype.trim`. -/
def jsTrim (s : String) : String :=
  String.mk (((s.data.dropWhile jsSpace).reverse.dropWhile jsSpace).reverse)

/-- Character-list core of `String.prototype.startsWith`. -/
def startsWithCh : List Char → List Char → Bool
  | _, [] => true
  | [], _ :: _ => false
  | c :: cs, p :: ps => c = p && startsWithCh cs ps

/-- Model of `id.startsWith('http')`-style tests. -/
def jsStartsWith (s pat : String) : Bool :=
  startsWithCh s.data pat.data

/-- Split a character list at every newline, keeping empty segments, as
`csvText.split('\n')` does. -/
def splitNl : List Char → List (List Char)
  | [] => [[]]
  | c :: rest =>
      if c = '\n' then [] :: splitNl rest
      else
        match splitNl rest with
        | [] => [[c]]
        | line :: more => (c :: line) :: more

/-- Model of the BOM strip at the top of `processCsvData`
(`charCodeAt(0) === 0xFEFF` then `substring(1)`). -/
def stripBOM (s : String) : String :=
  match s.data with
  | '\uFEFF' :: rest => String.mk rest
  | _ => s

/-- Lines of the CSV text after BOM stripping. -/
def linesOf (csvText : String) : List String :=
  (splitNl (stripBOM csvText).data).map String.mk

/-! ## Batch-identifier matcher

The source applies `batchId.match(/MKRM-([a-zA-Z\s]+)(\d+)-(\d{4})-([a-zA-Z]+)(\d+)/)`:
an unanchored search for the leftmost substring matching
literal `MKRM-`, then one-or-more letters/whitespace, one-or-more digits,
`-`, exactly four digits, `-`, one-or-more letters, one-or-more digits.
Because every adjacent pair of sub-patterns draws from disjoint character
classes (letters/whitespace vs digits vs the literal `-`), the regex
engine's greedy backtracking is equivalent to maximal-munch: at a given
start position the pattern matches iff taking each repeated class
maximally succeeds, so the matcher below is an exact model. -/

/-- Capture groups of the batch-identifier pattern, in order. -/
structure MatchParts where
  riceKey : String
  sequenceNumber : String
  year : String
  locationKey : String
  trailingDigits : String
deriving DecidableEq, Repr

/-- Attempt to match the batch-identifier pattern at the head of the
character list (maximal munch per repeated class, see above). -/
def matchAt (cs : List Char) : Option MatchParts :=
  match cs with
  | 'M' :: 'K' :: 'R' :: 'M' :: '-' :: rest =>
      let (g1, r1) := rest.span (fun c => c.isAlpha || jsSpace c)
      if g1.isEmpty then none else
      let (g2, r2) := r1.span Char.isDigit
      if g2.isEmpty then none else
      match r2 with
      | '-' :: r3 =>
          let y := r3.take 4
          if y.length = 4 && y.all Char.isDigit then
            match r3.drop 4 with
            | '-' :: r5 =>
                let (g4, r6) := r5.span Char.isAlpha
                if g4.isEmpty then none else
                let (g5, _) := r6.span Char.isDigit
                if g5.isEmpty then none else
                some ⟨String.mk g1, String.mk g2, String.mk y,
                      String.mk g4, String.mk g5⟩
            | _ => none
          else none
      | _ => none
  | _ => none

/-- Unanchored leftmost search, as `String.prototype.match` performs. -/
def matchSearch : List Char → Option MatchParts
  | [] => none
  | c :: cs =>
      match matchAt (c :: cs) with
      | some p => some p
      | none => matchSearch cs

/-- Model of `batchId.match(/MKRM-([a-zA-Z\s]+)(\d+)-(\d{4})-([a-zA-Z]+)(\d+)/)`
returning the capture groups on success. -/
def matchBatchId (s : String) : Option MatchParts :=
  matchSearch s.data

/-! ## Record synthesizer (src/index.tsx, `generateTraceabilityRecord`) -/

/-- Farm table from `farmDefinitions` (names only; the constant
`mapEmbedUrl` strings are presentation). -/
def farmDefinitions : List (String × String) :=
  [("Chattisgarh", "Verma Agri-Group, Raipur"),
   ("Miryalaguda", "Reddy Organic Farms, Nalgonda"),
   ("Kakinada", "Coastal Paddy Fields, East Godavari"),
   ("Warangal", "Kakatiya Growers Co-op, Warangal")]

/-- Plant table from `plantDefinitions`. -/
def plantDefinitions : List (String × String) :=
  [("Chattisgarh", "MKRM Plant #1"), ("Miryalaguda", "MKRM Plant #2"),
   ("Kakinada", "MKRM Plant #3"), ("Warangal", "MKRM Plant #4")]

/-- Rice-variety table from `riceTypeDefinitions`: key ↦ (name, grade). -/
def riceTypeDefinitions : List (String × (String × String)) :=
  [("SonaMasoori", ("Sona Masoori Rice", "Premium Quality")),
   ("Broken Rice", ("Broken White Rice", "Standard Grade")),
   ("JaiSriRam", ("Jai Sri Ram Premium Rice", "Superior Grade")),
   ("Basmathi", ("Extra-Long Grain Basmati", "USDA Grade A"))]

/-- Model of `riceKey.replace(/\s/g, '')`. -/
def removeSpaces (s : String) : String :=
  String.mk (s.data.filter (fun c => !jsSpace c))

/-- One record's worth of outcomes of the `parseInt(getRandom(a, b, 0))`
calls inside `generateTraceabilityRecord`: the milling day-of-year sample
(range `[60, 300)` before rounding), the harvest-offset sample (range
`[20, 45)`) and the arrival-offset sample (range `[2, 4)`). -/
structure RandSamples where
  dayOfYear : Nat
  harvestOff : Nat
  arrivalOff : Nat
deriving DecidableEq, Repr

/-- Exactly the integers reachable by each sample: a uniform draw in
`[a, b)` rounded by `toFixed(0)` (round half away from zero) yields every
integer of `[a, b]` and no other. -/
def ValidSamples (r : RandSamples) : Prop :=
  (60 ≤ r.dayOfYear ∧ r.dayOfYear ≤ 300) ∧
  (20 ≤ r.harvestOff ∧ r.harvestOff ≤ 45) ∧
  (2 ≤ r.arrivalOff ∧ r.arrivalOff ≤ 4)

instance (r : RandSamples) : Decidable (ValidSamples r) := by
  unfold ValidSamples; infer_instance

/-- Synthesized traceability record.  Dates are day indices relative to the
parsed year (`new Date(year, 0, n) ↦ n`, so January 1 is index 1); the
displayed date strings, quality-metric strings, map URL and certification
line are presentation and omitted (no claim mentions them). -/
structure TraceabilityRecord where
  batchId : String
  productName : String
  grade : String
  farmName : String
  facility : String
  harvestDay : Int
  millingDay : Int
  departureDay : Int
  arrivalDay : Int
  packagingDay : Int
deriving DecidableEq, Repr

/-- Model of `generateTraceabilityRecord(batchId)`: match the identifier
pattern (returning `none` for `null` on failure); resolve variety via the
space-stripped key, then the raw key, then the generic fallback; resolve
farm and plant with generic fallbacks; derive the five dates from the
sampled day-of-year and offsets exactly as the source's `setDate`
arithmetic does. -/
def generateTraceabilityRecord (batchId : String) (rnd : RandSamples) :
    Option TraceabilityRecord :=
  match matchBatchId batchId with
  | none => none
  | some parts =>
      let riceInfo :=
        match riceTypeDefinitions.lookup (removeSpaces parts.riceKey) with
        | some info => info
        | none => (riceTypeDefinitions.lookup parts.riceKey).getD
            ("Standard Rice", "Standard")
      let farmName := (farmDefinitions.lookup parts.locationKey).getD "Unknown Farm"
      let facility := (plantDefinitions.lookup parts.locationKey).getD "MKRM Plant #0"
      let millingDay : Int := rnd.dayOfYear
      let harvestDay : Int := millingDay - rnd.harvestOff
      let departureDay : Int := millingDay + 1
      let arrivalDay : Int := departureDay + rnd.arrivalOff
      let packagingDay : Int := arrivalDay + 1
      some { batchId := batchId,
             productName := riceInfo.1,
             grade := riceInfo.2,
             farmName := farmName,
             facility := facility ++ " (" ++ parts.locationKey ++ ")",
             harvestDay := harvestDay,
             millingDay := millingDay,
             departureDay := departureDay,
             arrivalDay := arrivalDay,
             packagingDay := packagingDay }

/-! ## Batch catalog builder (src/index.tsx, `processCsvData`) -/

/-- JavaScript object insertion `acc[k] = v`: overwrite the value in place
when the key exists, else append the binding. -/
def insertKV (acc : List (String × TraceabilityRecord)) (k : String)
    (v : TraceabilityRecord) : List (String × TraceabilityRecord) :=
  if (acc.lookup k).isSome then
    acc.map (fun kv => if kv.1 == k then (kv.1, v) else kv)
  else
    acc ++ [(k, v)]

/-- Fold of the source's `reduce` over the filtered identifier list; `i`
indexes the per-line random samples. -/
def buildCatalog (rnd : Nat → RandSamples) :
    Nat → List String → List (String × TraceabilityRecord) →
    List (String × TraceabilityRecord)
  | _, [], acc => acc
  | i, id :: rest, acc =>
      let acc' :=
        match generateTraceabilityRecord (jsTrim id) (rnd i) with
        | some record => insertKV acc (jsTrim id) record
        | none => acc
      buildCatalog rnd (i + 1) rest acc'

/-- Line filter of `processCsvData`: keep lines whose trim is nonempty and
that do not start with `http`. -/
def batchIdListOf (csvText : String) : List String :=
  (linesOf csvText).filter
    (fun id => !(jsTrim id == "") && !(jsStartsWith id "http"))

/-- Model of `DataProcessor.processCsvData(csvText)`: strip the BOM, split
on newlines, filter, then build the identifier-keyed mapping (an
association list with JavaScript-object insertion semantics), each entry
generated from the trimmed line. -/
def processCsvData (rnd : Nat → RandSamples) (csvText : String) :
    List (String × TraceabilityRecord) :=
  buildCatalog rnd 0 (batchIdListOf csvText) []

/-! ## Concrete fixtures used by counterexamples and witnesses -/

/-- Shipping details fixture. -/
def detailsFx : ShippingDetails :=
  ⟨"A Customer", "1 Main Rd", "Hyderabad", "Telangana", "500001", "a@b.c"⟩

/-- A pre-existing order in the history. -/
def oldOrderFx : PlacedOrder := ⟨"old", "01/01/2024", [], 0, 0, 0, detailsFx⟩

/-- Session with one cart line and one prior order. -/
def sessionFx : SessionState :=
  { cart := [⟨1, "Sona Masoori Rice", 100, 1⟩], orders := [oldOrderFx] }

/-- Sample triple with the milling day-of-year at its lowest reachable
value 60 (a uniform draw below 60.5 rounds to 60). -/
def lowSamplesFx : RandSamples := ⟨60, 30, 3⟩

/-- Generic sample triple. -/
def midSamplesFx : RandSamples := ⟨200, 30, 3⟩

/-- Per-line sample stream fixture. -/
def rndFx : Nat → RandSamples := fun _ => ⟨100, 25, 2⟩

/-- Record synthesized from identifier `MKRM-Basmathi7-2023-Warangal4`
under the samples of `rndFx`. -/
def recFx : TraceabilityRecord :=
  ⟨"MKRM-Basmathi7-2023-Warangal4", "Extra-Long Grain Basmati",
   "USDA Grade A", "Kakatiya Growers Co-op, Warangal",
   "MKRM Plant #4 (Warangal)", 75, 100, 101, 103, 104⟩

/-! ## Theorems -/

/-- Left fold of price-times-quantity equals the sum over the mapped cart. -/
theorem foldl_price_sum (l : List CartItem) (a : ℚ) :
    l.foldl (fun sum item => sum + item.priceINR * item.quantity) a
      = a + (l.map (fun i => i.priceINR * i.quantity)).sum := by
  induction l generalizing a with
  | nil => simp
  | cons x xs ih => simp [ih, add_assoc]

/-- C2: placeOrder computes subtotal as the sum of unit price times
quantity over the cart lines, taxes as 0.18 times the subtotal, total as
subtotal plus taxes, and clears the cart; in particular the cart
[(price=100,qty=2),(price=50,qty=1)] yields subtotal 250, taxes 45 and
total 295. -/
theorem placeOrder_totals_and_clears (st : SessionState)
    (details : ShippingDetails) (now : Nat) (dateStr : String) :
    ((placeOrder st details now dateStr).cart = []
      ∧ ∃ o, (placeOrder st details now dateStr).orders.head? = some o
          ∧ o.subtotal = (st.cart.map (fun i => i.priceINR * i.quantity)).sum
          ∧ o.taxes = o.subtotal * 0.18
          ∧ o.total = o.subtotal + o.taxes)
    ∧ ((placeOrder ⟨[⟨1, "Sona Masoori Rice", 100, 2⟩,
            ⟨2, "Broken White Rice", 50, 1⟩], st.orders⟩ details now dateStr).cart = []
        ∧ ∃ o, (placeOrder ⟨[⟨1, "Sona Masoori Rice", 100, 2⟩,
              ⟨2, "Broken White Rice", 50, 1⟩], st.orders⟩ details now dateStr).orders.head?
                = some o
            ∧ o.subtotal = 250 ∧ o.taxes = 45 ∧ o.total = 295) := by
  constructor
  · refine ⟨rfl, _, rfl, ?_, rfl, rfl⟩
    simpa using foldl_price_sum st.cart 0
  · refine ⟨rfl, _, rfl, ?_, ?_, ?_⟩ <;> norm_num [placeOrder]

/-- C8 (amended): placeOrder prepends the new order at the front of the
order history; the previous orders all remain in the history, and no
operation deletes an order. -/
theorem placeOrder_prepends (st : SessionState) (details : ShippingDetails)
    (now : Nat) (dateStr : String) :
    ∃ o, (placeOrder st details now dateStr).orders = o :: st.orders
      ∧ ∀ o' ∈ st.orders, o' ∈ (placeOrder st details now dateStr).orders :=
  ⟨_, rfl, fun _ h => List.mem_cons_of_mem _ h⟩

/-- C8 counterexample: with one prior order (id "old") in the history,
placing an order yields ids ["MKRM-0", "old"]: the new order sits at the
front, not at the end, so the claim that the new order is added at the end
with the previous orders staying in place is false. -/
theorem placeOrder_append_counterexample :
    (placeOrder sessionFx detailsFx 0 "02/01/2024").orders.map PlacedOrder.id
        = ["MKRM-0", "old"]
    ∧ ["MKRM-0", "old"] ≠ ["old", "MKRM-0"] := by
  refine ⟨rfl, by decide⟩

/-- Filtering away a product id commutes with the quantity-replacing map of
updateCartQuantity. -/
theorem filter_ne_map_update (cart : List CartItem) (pid : Nat) (q : ℚ) :
    (cart.map (fun item =>
        if item.id == pid then { item with quantity := q } else item)).filter
        (fun l => l.id != pid)
      = cart.filter (fun l => l.id != pid) := by
  induction cart with
  | nil => rfl
  | cons x xs ih =>
      by_cases h : x.id = pid <;> simpa [h] using ih

/-- Restricting to a product id after the quantity-replacing map rewrites
exactly the quantities of that id's lines. -/
theorem filter_eq_map_update (cart : List CartItem) (pid : Nat) (q : ℚ) :
    (cart.map (fun item =>
        if item.id == pid then { item with quantity := q } else item)).filter
        (fun l => l.id == pid)
      = (cart.filter (fun l => l.id == pid)).map
          (fun l => { l with quantity := q }) := by
  induction cart with
  | nil => rfl
  | cons x xs ih =>
      by_cases h : x.id = pid <;> simpa [h] using ih

/-- C4: updateCartQuantity with a new quantity at most 0 removes the
product's lines entirely, and with a positive new quantity replaces those
lines' quantity with the new value, leaving all other lines unchanged. -/
theorem updateCartQuantity_spec (cart : List CartItem) (productId : Nat)
    (newQuantity : ℚ) :
    (newQuantity ≤ 0 →
        (∀ l ∈ updateCartQuantity cart productId newQuantity, l.id ≠ productId)
          ∧ updateCartQuantity cart productId newQuantity
              = cart.filter (fun l => l.id != productId))
    ∧ (0 < newQuantity →
        (updateCartQuantity cart productId newQuantity).filter
            (fun l => l.id != productId)
          = cart.filter (fun l => l.id != productId)
        ∧ (updateCartQuantity cart productId newQuantity).filter
            (fun l => l.id == productId)
          = (cart.filter (fun l => l.id == productId)).map
              (fun l => { l with quantity := newQuantity })) := by
  constructor
  · intro hq
    have hbranch : updateCartQuantity cart productId newQuantity
        = cart.filter (fun l => l.id != productId) := by
      unfold updateCartQuantity; rw [if_pos hq]
    refine ⟨?_, hbranch⟩
    intro l hl
    rw [hbranch] at hl
    simpa using (List.of_mem_filter hl)
  · intro hq
    have hbranch : updateCartQuantity cart productId newQuantity
        = cart.map (fun item =>
            if item.id == productId then { item with quantity := newQuantity }
            else item) := by
      unfold updateCartQuantity; rw [if_neg (not_le.mpr hq)]
    rw [hbranch]
    exact ⟨filter_ne_map_update cart productId newQuantity,
           filter_eq_map_update cart productId newQuantity⟩

/-- C4 witness: updating id 1 to quantity 0 removes its line; updating id 1
to quantity 5 replaces the quantity. -/
theorem updateCartQuantity_spec_witness :
    updateCartQuantity [⟨1, "Sona Masoori Rice", 100, 2⟩,
        ⟨2, "Broken White Rice", 50, 1⟩] 1 0 = [⟨2, "Broken White Rice", 50, 1⟩]
    ∧ (updateCartQuantity [⟨1, "Sona Masoori Rice", 100, 2⟩,
          ⟨2, "Broken White Rice", 50, 1⟩] 1 5).filter (fun l => l.id == 1)
        = [⟨1, "Sona Masoori Rice", 100, 5⟩] := by
  constructor
  · have h := (updateCartQuantity_spec [⟨1, "Sona Masoori Rice", 100, 2⟩,
        ⟨2, "Broken White Rice", 50, 1⟩] 1 0).1 (le_refl 0)
    rw [h.2]; rfl
  · have h := (updateCartQuantity_spec [⟨1, "Sona Masoori Rice", 100, 2⟩,
        ⟨2, "Broken White Rice", 50, 1⟩] 1 5).2 (by norm_num)
    rw [h.2]; rfl

/-- C6: for a rice type absent from the base-price table, the fallback
estimator uses base price 5000: price per quintal is
5000 * (1 + (month % 3) * 0.05) and the estimated total is the per-quintal
price scaled by quantity / 100. -/
theorem fallbackPrice_default_spec (riceType : String) (quantity : ℚ)
    (currentMonth : Nat) (h : basePrices.lookup riceType = none) :
    (fallbackPrice riceType quantity currentMonth).pricePerQuintal
        = 5000 * (1 + ((currentMonth % 3 : Nat) : ℚ) * 0.05)
    ∧ (fallbackPrice riceType quantity currentMonth).estimatedPriceINR
        = (fallbackPrice riceType quantity currentMonth).pricePerQuintal
            * (quantity / 100) := by
  unfold fallbackPrice
  rw [h]
  exact ⟨rfl, rfl⟩

/-- C6 witness: the name "Paddy Gold" is not in the base-price table, and
the fallback estimate at quantity 200 in month 4 follows the default
formulas. -/
theorem fallbackPrice_default_spec_witness :
    basePrices.lookup "Paddy Gold" = none
    ∧ ((fallbackPrice "Paddy Gold" 200 4).pricePerQuintal
          = 5000 * (1 + ((4 % 3 : Nat) : ℚ) * 0.05)
        ∧ (fallbackPrice "Paddy Gold" 200 4).estimatedPriceINR
          = (fallbackPrice "Paddy Gold" 200 4).pricePerQuintal * (200 / 100)) :=
  ⟨by rfl, fallbackPrice_default_spec "Paddy Gold" 200 4 (by rfl)⟩

/-- Mapping an id-conditional rewrite over a cart with no line of that id
leaves the cart unchanged. -/
theorem map_if_id_eq_self (cart : List CartItem) (pid : Nat)
    (g : CartItem → CartItem) (h : ∀ x ∈ cart, x.id ≠ pid) :
    cart.map (fun item => if item.id == pid then g item else item) = cart := by
  induction cart with
  | nil => rfl
  | cons x xs ih =>
      have hx : x.id ≠ pid := h x (List.mem_cons_self x xs)
      simp only [List.map_cons]
      rw [if_neg (by simpa using hx), ih (fun y hy => h y (List.mem_cons_of_mem x hy))]

/-- find? over a list that fails the predicate everywhere, extended by one
element, tests exactly that element. -/
theorem find?_append_singleton (cart : List CartItem) (p : CartItem → Bool)
    (it : CartItem) (h : ∀ x ∈ cart, p x = false) :
    (cart ++ [it]).find? p = if p it then some it else none := by
  induction cart with
  | nil =>
      simp only [List.nil_append, List.find?]
      cases hp : p it <;> simp [hp]
  | cons x xs ih =>
      have hx : p x = false := h x (List.mem_cons_self x xs)
      simp only [List.cons_append, List.find?, hx]
      exact ih (fun y hy => h y (List.mem_cons_of_mem x hy))

/-- C3 counterexample: starting from a cart that already holds product 1
with quantity 5, adding quantity 1 twice leaves a single line of quantity
7, not q1 + q2 = 2, so the claim fails for carts already containing the
product. -/
theorem addToCart_merge_counterexample :
    (cartLinesFor (addToCart (addToCart [⟨1, "Sona Masoori Rice", 100, 5⟩]
            ⟨1, "Sona Masoori Rice", 100⟩ 1) ⟨1, "Sona Masoori Rice", 100⟩ 1) 1).map
        CartItem.quantity = [7]
    ∧ (7 : ℚ) ≠ 1 + 1 := by
  refine ⟨by norm_num [addToCart, cartLinesFor, List.find?, List.filter], by norm_num⟩

/-- C3 (amended): for every cart containing no line for the product, adding
the product with quantity q1 and then with quantity q2 yields exactly one
line for that product, of quantity q1 + q2; and for a product with no
existing line, a single add appends a new line with the given quantity. -/
theorem addToCart_merge (cart : List CartItem) (p : ShopProduct) (q1 q2 : ℚ)
    (h : cartLinesFor cart p.id = []) :
    cartLinesFor (addToCart (addToCart cart p q1) p q2) p.id
        = [⟨p.id, p.name, p.priceINR, q1 + q2⟩]
    ∧ addToCart cart p q1 = cart ++ [⟨p.id, p.name, p.priceINR, q1⟩] := by
  have hnotin : ∀ x ∈ cart, x.id ≠ p.id := by
    intro x hx heq
    have hfilter : cart.filter (fun item => item.id == p.id) = [] := h
    have : x ∈ cart.filter (fun item => item.id == p.id) :=
      List.mem_filter.mpr ⟨hx, by simpa using heq⟩
    rw [hfilter] at this
    exact (List.not_mem_nil x) this
  have hfind : cart.find? (fun item => item.id == p.id) = none :=
    List.find?_eq_none.mpr (fun x hx => by simpa using hnotin x hx)
  have step1 : addToCart cart p q1 = cart ++ [⟨p.id, p.name, p.priceINR, q1⟩] := by
    unfold addToCart; rw [hfind]
  refine ⟨?_, step1⟩
  rw [step1]
  have hfind2 : (cart ++ [(⟨p.id, p.name, p.priceINR, q1⟩ : CartItem)]).find?
      (fun item => item.id == p.id)
      = some ⟨p.id, p.name, p.priceINR, q1⟩ := by
    rw [find?_append_singleton cart _ _
      (fun x hx => by simpa using hnotin x hx)]
    simp
  unfold addToCart
  rw [hfind2, List.map_append,
    map_if_id_eq_self cart p.id _ hnotin]
  unfold cartLinesFor
  rw [List.filter_append]
  have hfilter : cart.filter (fun item => item.id == p.id) = [] := h
  simp [hfilter]

/-- C3 witness: on the empty cart, adding product 2 with quantities 2 and 3
yields one line of quantity 5, and a single add appends the line. -/
theorem addToCart_merge_witness :
    cartLinesFor [] 2 = []
    ∧ (cartLinesFor (addToCart (addToCart [] ⟨2, "Broken White Rice", 50⟩ 2)
          ⟨2, "Broken White Rice", 50⟩ 3) 2
        = [⟨2, "Broken White Rice", 50, 2 + 3⟩]
      ∧ addToCart [] ⟨2, "Broken White Rice", 50⟩ 2
        = [] ++ [⟨2, "Broken White Rice", 50, 2⟩]) :=
  ⟨rfl, addToCart_merge [] ⟨2, "Broken White Rice", 50⟩ 2 3 rfl⟩

/-- Synthesis fails exactly when the identifier pattern fails to match. -/
theorem generate_eq_none (s : String) (rnd : RandSamples)
    (h : matchBatchId s = none) : generateTraceabilityRecord s rnd = none := by
  unfold generateTraceabilityRecord; rw [h]

/-- Synthesis succeeds on every identifier matched by the pattern, and the
produced record carries the identifier as its batchId. -/
theorem generate_eq_some (s : String) (rnd : RandSamples) (parts : MatchParts)
    (h : matchBatchId s = some parts) :
    ∃ rec, generateTraceabilityRecord s rnd = some rec ∧ rec.batchId = s := by
  unfold generateTraceabilityRecord; rw [h]; exact ⟨_, rfl, rfl⟩

/-- Every synthesized record carries the identifier it was generated from. -/
theorem generate_batchId (s : String) (rnd : RandSamples)
    (rec : TraceabilityRecord)
    (h : generateTraceabilityRecord s rnd = some rec) : rec.batchId = s := by
  unfold generateTraceabilityRecord at h
  cases hm : matchBatchId s with
  | none => rw [hm] at h; exact absurd h (by simp)
  | some parts => rw [hm] at h; cases h; rfl

/-- C1: for every identifier accepted by the pattern and every choice of
the random samples, the synthesized record's dates are strictly
chronological: harvest < milling < departure < arrival < packaging. -/
theorem trace_dates_chronological (s : String) (r : RandSamples)
    (hr : ValidSamples r) (parts : MatchParts)
    (hm : matchBatchId s = some parts) :
    ∃ rec, generateTraceabilityRecord s r = some rec
      ∧ rec.harvestDay < rec.millingDay ∧ rec.millingDay < rec.departureDay
      ∧ rec.departureDay < rec.arrivalDay ∧ rec.arrivalDay < rec.packagingDay := by
  obtain ⟨⟨h1, h2⟩, ⟨h3, h4⟩, ⟨h5, h6⟩⟩ := hr
  unfold generateTraceabilityRecord
  rw [hm]
  refine ⟨_, rfl, ?_, ?_, ?_, ?_⟩ <;> dsimp only <;> omega

/-- C1 witness: a concrete accepted identifier and concrete valid samples
produce strictly chronological dates. -/
theorem trace_dates_chronological_witness :
    ValidSamples midSamplesFx
    ∧ ∃ rec, generateTraceabilityRecord "MKRM-SonaMasoori23-2024-Chattisgarh8"
          midSamplesFx = some rec
        ∧ rec.harvestDay < rec.millingDay ∧ rec.millingDay < rec.departureDay
        ∧ rec.departureDay < rec.arrivalDay ∧ rec.arrivalDay < rec.packagingDay :=
  ⟨by decide,
   trace_dates_chronological "MKRM-SonaMasoori23-2024-Chattisgarh8" midSamplesFx
     (by decide) ⟨"SonaMasoori", "23", "2024", "Chattisgarh", "8"⟩ (by rfl)⟩

/-- C7 (amended): the milling date is January 1 of the parsed year plus an
offset of at least 59 and strictly less than 300 days (the day index of
January 1 is 1, so the offset from year-01-01 is millingDay minus 1). -/
theorem millingDay_offset_range (s : String) (r : RandSamples)
    (hr : ValidSamples r) (parts : MatchParts)
    (hm : matchBatchId s = some parts) :
    ∃ rec, generateTraceabilityRecord s r = some rec
      ∧ 59 ≤ rec.millingDay - 1 ∧ rec.millingDay - 1 < 300 := by
  obtain ⟨⟨h1, h2⟩, ⟨h3, h4⟩, ⟨h5, h6⟩⟩ := hr
  unfold generateTraceabilityRecord
  rw [hm]
  refine ⟨_, rfl, ?_, ?_⟩ <;> dsimp only <;> omega

/-- C7 counterexample: day-of-year sample 60 is reachable (any uniform
draw below 60.5 rounds to 60), and it puts the milling date 59 days after
January 1, violating the claimed lower bound of 60. -/
theorem millingDay_offset_counterexample :
    ValidSamples lowSamplesFx
    ∧ (generateTraceabilityRecord "MKRM-JaiSriRam5-2022-Kakinada2"
          lowSamplesFx).map (fun rec => rec.millingDay - 1) = some 59
    ∧ ¬ (60 ≤ (59 : Int)) := by
  refine ⟨by decide, by rfl, by decide⟩

/-- C7 witness: concrete valid samples with the day-of-year at its maximum
reachable value 300 keep the offset below 300. -/
theorem millingDay_offset_range_witness :
    ValidSamples ⟨300, 20, 2⟩
    ∧ ∃ rec, generateTraceabilityRecord "MKRM-Basmathi1-2021-Miryalaguda9"
          ⟨300, 20, 2⟩ = some rec
        ∧ 59 ≤ rec.millingDay - 1 ∧ rec.millingDay - 1 < 300 :=
  ⟨by decide,
   millingDay_offset_range "MKRM-Basmathi1-2021-Miryalaguda9" ⟨300, 20, 2⟩
     (by decide) ⟨"Basmathi", "1", "2021", "Miryalaguda", "9"⟩ (by rfl)⟩

/-- Lookup on a cons cell tests the head key first. -/
theorem lookup_cons (t a : String) (b : TraceabilityRecord)
    (rest : List (String × TraceabilityRecord)) :
    List.lookup t ((a, b) :: rest)
      = if t == a then some b else List.lookup t rest := by
  cases h : t == a <;> simp [List.lookup, h]

/-- Lookup after appending one binding: the old bindings shadow the new
one. -/
theorem lookup_append_one (acc : List (String × TraceabilityRecord))
    (t k : String) (v : TraceabilityRecord) :
    (acc ++ [(k, v)]).lookup t
      = match acc.lookup t with
        | some w => some w
        | none => if t == k then some v else none := by
  induction acc with
  | nil =>
      simp only [List.nil_append]
      rw [lookup_cons]
      cases h : t == k <;> simp [List.lookup, h]
  | cons kv rest ih =>
      obtain ⟨a, b⟩ := kv
      rw [List.cons_append, lookup_cons, lookup_cons]
      cases h : t == a <;> simp [h, ih]

/-- Rewriting the value stored at one key leaves lookups of other keys
unchanged. -/
theorem lookup_map_set_ne (acc : List (String × TraceabilityRecord))
    (t k : String) (v : TraceabilityRecord) (hne : t ≠ k) :
    (acc.map (fun kv => if kv.1 == k then (kv.1, v) else kv)).lookup t
      = acc.lookup t := by
  induction acc with
  | nil => rfl
  | cons kv rest ih =>
      obtain ⟨a, b⟩ := kv
      simp only [List.map_cons]
      cases hak : (a == k)
      · rw [if_neg (by simp), lookup_cons, lookup_cons]
        cases hta : (t == a)
        · simpa using ih
        · simp
      · rw [if_pos rfl]
        have hta : (t == a) = false := by
          rw [beq_eq_false_iff_ne]
          intro h'
          exact hne (h'.trans (beq_iff_eq.mp hak))
        rw [lookup_cons, lookup_cons, hta]
        simpa using ih

/-- Rewriting the value stored at a present key makes its lookup return
the new value. -/
theorem lookup_map_set_self (acc : List (String × TraceabilityRecord))
    (k : String) (v : TraceabilityRecord) (h : (acc.lookup k).isSome) :
    (acc.map (fun kv => if kv.1 == k then (kv.1, v) else kv)).lookup k
      = some v := by
  induction acc with
  | nil => simp [List.lookup] at h
  | cons kv rest ih =>
      obtain ⟨a, b⟩ := kv
      simp only [List.map_cons]
      cases hak : (a == k)
      · have hka : (k == a) = false := by
          rw [beq_eq_false_iff_ne]
          intro h'
          exact absurd (beq_iff_eq.mpr h'.symm) (by simp [hak])
        rw [lookup_cons, hka] at h
        rw [if_neg (by simp)] at h
        rw [if_neg (by simp), lookup_cons, hka, if_neg (by simp)]
        exact ih h
      · have hka : (k == a) = true := by
          simpa using (beq_iff_eq.mp hak).symm
        rw [if_pos rfl, lookup_cons, hka, if_pos rfl]

/-- Characterization of JavaScript-object insertion: looking up the
inserted key yields the inserted value, every other lookup is unchanged. -/
theorem lookup_insertKV (acc : List (String × TraceabilityRecord))
    (k : String) (v : TraceabilityRecord) (t : String) :
    (insertKV acc k v).lookup t = if t = k then some v else acc.lookup t := by
  unfold insertKV
  by_cases hk : (acc.lookup k).isSome
  · rw [if_pos hk]
    by_cases htk : t = k
    · subst htk
      rw [if_pos rfl]
      exact lookup_map_set_self acc t v hk
    · rw [if_neg htk]
      exact lookup_map_set_ne acc t k v htk
  · rw [if_neg hk, lookup_append_one]
    by_cases htk : t = k
    · subst htk
      rw [Option.not_isSome_iff_eq_none.mp hk]
      simp
    · cases h : acc.lookup t <;> simp [h, htk]

/-- Invariant preservation along the catalog fold: any property that holds
of the accumulated bindings and of every binding the fold can insert holds
of the result's bindings. -/
theorem buildCatalog_lookup_invariant (rnd : Nat → RandSamples)
    (ids : List String) (P : String → TraceabilityRecord → Prop)
    (hstep : ∀ id ∈ ids, ∀ rec i,
        generateTraceabilityRecord (jsTrim id) (rnd i) = some rec →
        P (jsTrim id) rec) :
    ∀ i acc, (∀ k r, acc.lookup k = some r → P k r) →
      ∀ k r, (buildCatalog rnd i ids acc).lookup k = some r → P k r := by
  induction ids with
  | nil =>
      intro i acc hacc k r h
      exact hacc k r h
  | cons id rest ih =>
      intro i acc hacc k r h
      simp only [buildCatalog] at h
      cases hgen : generateTraceabilityRecord (jsTrim id) (rnd i) with
      | none =>
          rw [hgen] at h
          exact ih (fun x hx => hstep x (List.mem_cons_of_mem id hx))
            (i + 1) acc hacc k r h
      | some rec0 =>
          rw [hgen] at h
          refine ih (fun x hx => hstep x (List.mem_cons_of_mem id hx))
            (i + 1) (insertKV acc (jsTrim id) rec0) ?_ k r h
          intro k' r' hk'
          rw [lookup_insertKV] at hk'
          by_cases hkey : k' = jsTrim id
          · rw [if_pos hkey] at hk'
            injection hk' with hv
            subst hv
            rw [hkey]
            exact hstep id (List.mem_cons_self id rest) rec0 i hgen
          · rw [if_neg hkey] at hk'
            exact hacc k' r' hk'

/-- C5: a string whose pattern match fails is never a key of the catalog:
the builder silently omits every line that does not parse, and (being a
total function) it never throws. -/
theorem catalog_omits_unmatched (csvText : String) (rnd : Nat → RandSamples)
    (t : String) (h : matchBatchId t = none) :
    (processCsvData rnd csvText).lookup t = none := by
  have inv := buildCatalog_lookup_invariant rnd (batchIdListOf csvText)
      (fun k _ => matchBatchId k ≠ none)
      (fun id _ rec i hgen hnone => by
        rw [generate_eq_none (jsTrim id) (rnd i) hnone] at hgen
        exact Option.noConfusion hgen)
      0 [] (fun k r hkr => by simp [List.lookup] at hkr)
  cases hres : (processCsvData rnd csvText).lookup t with
  | none => rfl
  | some r => exact absurd h (inv t r hres)

/-- C5 witness: the line `NOTVALID` fails the pattern and is absent from
the catalog built over a text block containing it. -/
theorem catalog_omits_unmatched_witness :
    matchBatchId "NOTVALID" = none
    ∧ (processCsvData rndFx
          "NOTVALID\nMKRM-SonaMasoori23-2024-Chattisgarh8").lookup "NOTVALID"
        = none :=
  ⟨by rfl,
   catalog_omits_unmatched "NOTVALID\nMKRM-SonaMasoori23-2024-Chattisgarh8"
     rndFx "NOTVALID" (by rfl)⟩

/-- C9: every key of the catalog is the trimmed text of one of the input's
lines, and the record stored at a key has that key as its batchId, so
looking a record up by id returns a record carrying that id. -/
theorem catalog_keys_sound (csvText : String) (rnd : Nat → RandSamples)
    (k : String) (r : TraceabilityRecord)
    (h : (processCsvData rnd csvText).lookup k = some r) :
    k ∈ (linesOf csvText).map jsTrim ∧ r.batchId = k := by
  refine buildCatalog_lookup_invariant rnd (batchIdListOf csvText)
      (fun k r => k ∈ (linesOf csvText).map jsTrim ∧ r.batchId = k)
      ?_ 0 [] (fun k' r' hk' => by simp [List.lookup] at hk') k r h
  intro id hid rec i hgen
  exact ⟨List.mem_map_of_mem jsTrim (List.mem_of_mem_filter hid),
         generate_batchId (jsTrim id) (rnd i) rec hgen⟩

/-- C9 witness: a single-line catalog has its line's trim as key and the
stored record's batchId equals that key. -/
theorem catalog_keys_sound_witness :
    "MKRM-Basmathi7-2023-Warangal4"
        ∈ (linesOf "MKRM-Basmathi7-2023-Warangal4").map jsTrim
    ∧ recFx.batchId = "MKRM-Basmathi7-2023-Warangal4" :=
  catalog_keys_sound "MKRM-Basmathi7-2023-Warangal4" rndFx
    "MKRM-Basmathi7-2023-Warangal4" recFx (by rfl)

/-- C10: identifier matching is substring-based, not whole-line: the line
`XMKRM-SonaMasoori23-2024-Chattisgarh8Y` contains the pattern only as a
proper substring (with extra characters on both sides), yet the parser
succeeds on it and the catalog builder keys the full trimmed line. -/
theorem match_is_substring_search (rnd : Nat → RandSamples) :
    (matchBatchId "XMKRM-SonaMasoori23-2024-Chattisgarh8Y").isSome = true
    ∧ (processCsvData rnd "XMKRM-SonaMasoori23-2024-Chattisgarh8Y").lookup
        "XMKRM-SonaMasoori23-2024-Chattisgarh8Y" ≠ none := by
  constructor
  · rfl
  · have hstep : processCsvData rnd "XMKRM-SonaMasoori23-2024-Chattisgarh8Y"
        = buildCatalog rnd 0 ["XMKRM-SonaMasoori23-2024-Chattisgarh8Y"] [] := rfl
    rw [hstep]
    obtain ⟨rec, hrec, -⟩ :=
      generate_eq_some (jsTrim "XMKRM-SonaMasoori23-2024-Chattisgarh8Y") (rnd 0)
        ⟨"SonaMasoori", "23", "2024", "Chattisgarh", "8"⟩ (by rfl)
    simp only [buildCatalog, hrec]
    rw [lookup_insertKV]
    split_ifs with hkey
    · simp
    · exact absurd rfl hkey
